import Mathlib

/-!
Shallow embedding of `src/telegram_real_estate_bot.py` (a single-file
aiogram conversation bot) and proofs about its conversation state
machine, validators, file-acceptance policy and report command.

Modelling conventions:
* Python strings are Lean `String`s.  `str.strip()` is `String.pyStrip`,
  `str.lower()` is `pyLower` (ASCII plus the Russian Cyrillic block,
  which covers every string the program compares), `str.split()` is
  splitting on whitespace and dropping empty tokens, `str.isdigit()`
  is `pyIsDigit` (ASCII decimal digits, the only ones the program
  receives from its keyboards/prompts).
* `datetime.utcnow()` is a `Nat` count of seconds held in the ambient
  `Env`; `strftime` is `fmtUtc` / `fmtUtcCompact` (real Gregorian
  conversion).
* `uuid.uuid4()` is `uuidFormat` applied to a 128-bit random `Nat`
  held in the `Env` (hex groups 8-4-4-4-12, as `str(uuid4())`).
* The chat transport, database and filesystem are external
  collaborators: outbound calls become `Effect` values; the inbound
  failure modes the code handles (`try/except` around the operator
  notification and per-file sends) become Booleans in the `Env`.
  File downloads that the code assumes to succeed (primary attempt
  with fallback) are modelled as succeeding.
* aiogram dispatches a message to the first registered handler whose
  filters match; `handle` reproduces the registration order of the
  source (start/help, whoami, exact-text cancel, exact-text new
  request, the per-state handlers, then /report).
-/

/-- Python `str.lower` restricted to ASCII letters and the Russian
Cyrillic block (А-Я → а-я, Ё → ё) — the only characters the program
ever lowercases. -/
def pyLowerChar (c : Char) : Char :=
  if 65 ≤ c.toNat ∧ c.toNat ≤ 90 then Char.ofNat (c.toNat + 32)
  else if 0x410 ≤ c.toNat ∧ c.toNat ≤ 0x42F then Char.ofNat (c.toNat + 32)
  else if c.toNat = 0x401 then Char.ofNat 0x451
  else c

def pyLower (s : String) : String := String.mk (s.data.map pyLowerChar)

/-- The whitespace set of Python `str.strip()` / `str.split()`. -/
def isPySpace (c : Char) : Bool :=
  c = ' ' ∨ c = '\t' ∨ c = '\n' ∨ c = '\r' ∨ c = Char.ofNat 11 ∨ c = Char.ofNat 12

/-- Python `str.strip()`: leading and trailing whitespace removed. -/
def String.pyStrip (s : String) : String :=
  String.mk (((s.data.dropWhile isPySpace).reverse.dropWhile isPySpace).reverse)

/-- Helper of `wsTokens`: the accumulator holds the current token
reversed. -/
def wsTokensAux : List Char → List Char → List (List Char)
  | [], acc => if acc.isEmpty then [] else [acc.reverse]
  | c :: rest, acc =>
    if isPySpace c then
      if acc.isEmpty then wsTokensAux rest [] else acc.reverse :: wsTokensAux rest []
    else wsTokensAux rest (c :: acc)

/-- The whitespace-run tokens of a character list (Python
`str.split()` with no argument: runs of whitespace separate tokens,
empty tokens never produced). -/
def wsTokens (l : List Char) : List (List Char) := wsTokensAux l []

/-- `p` is a prefix of `s` (character lists). -/
def listPrefix : List Char → List Char → Bool
  | [], _ => true
  | _ :: _, [] => false
  | a :: as, b :: bs => a = b && listPrefix as bs

/-- `s.startswith(p)` on strings. -/
def strStartsWith (s p : String) : Bool := listPrefix p.data s.data

/-- `s.endswith(p)` on strings. -/
def strEndsWith (s p : String) : Bool := listPrefix p.data.reverse s.data.reverse

/-- Splitting a character list on a single space (Python
`str.split(" ")` as used by the command argument parser). -/
def splitSpace : List Char → List (List Char)
  | [] => [[]]
  | c :: rest =>
    if c = ' ' then [] :: splitSpace rest
    else
      match splitSpace rest with
      | s :: ss => (c :: s) :: ss
      | [] => [[c]]

/-- Joining segments back with a single space. -/
def joinSpace : List (List Char) → List Char
  | [] => []
  | [x] => x
  | x :: xs => x ++ ' ' :: joinSpace xs

/-- Python `str.isdigit` restricted to ASCII decimal digits:
nonempty and all characters in `0`..`9`. -/
def pyIsDigit (s : String) : Bool := s ≠ "" && s.data.all Char.isDigit

/-- `int(...)` on a digit string. -/
def pyInt (s : String) : Nat := s.data.foldl (fun n c => n * 10 + (c.toNat - 48)) 0

/-- `validate_address` from the source: false on the empty string,
otherwise at least two whitespace-separated tokens after stripping. -/
def validate_address (text : String) : Bool :=
  if text = "" then false
  else 2 ≤ (wsTokens text.pyStrip.data).length

/-- Splitting a character list on `:` (Python `str.split(':')` /
the segment structure of the regex `CADASTRAL_RE`). -/
def splitColon : List Char → List (List Char)
  | [] => [[]]
  | c :: rest =>
    if c = ':' then [] :: splitColon rest
    else
      match splitColon rest with
      | s :: ss => (c :: s) :: ss
      | [] => [[c]]

/-- One `\d{1,m}` segment of the regex: nonempty, at most `m`
characters, all ASCII digits. -/
def digitSeg (l : List Char) (m : Nat) : Bool :=
  !l.isEmpty && l.length ≤ m && l.all Char.isDigit

/-- `CADASTRAL_RE.match(s)` for the anchored regex
`^\d{1,3}:\d{1,3}:\d{1,10}:\d{1,10}$`: exactly four colon-separated
all-digit segments of lengths 1-3, 1-3, 1-10, 1-10. -/
def cadastralMatch (s : String) : Bool :=
  match splitColon s.data with
  | [a, b, c, d] => digitSeg a 3 && digitSeg b 3 && digitSeg c 10 && digitSeg d 10
  | _ => false

/-- `validate_cadastral` from the source.  Note the sentinel test
lowercases the *raw* text (no strip); only the regex branch strips. -/
def validate_cadastral (text : String) : Bool :=
  if pyLower text = "нет" ∨ pyLower text = "n" ∨ pyLower text = "no" then true
  else cadastralMatch text.pyStrip

/-- The spec's reading of `isValidCadastralNumber` (C3): the *trimmed*,
case-insensitive text equals a sentinel, or the text matches the
four-segment pattern.  Kept separate from `validate_cadastral` so the
two can be compared. -/
def cadastralSpec (text : String) : Bool :=
  if pyLower text.pyStrip = "нет" ∨ pyLower text.pyStrip = "n" ∨ pyLower text.pyStrip = "no" then true
  else cadastralMatch text.pyStrip

/-- Hex digit character (lowercase, as Python's uuid formatting). -/
def hexChar (n : Nat) : Char :=
  if n < 10 then Char.ofNat (48 + n) else Char.ofNat (87 + n)

/-- The 32 hex nibbles of a 128-bit value, most significant first. -/
def uuidNibbles (n : Nat) : List Char :=
  (List.range 32).map (fun i => hexChar (n % 2 ^ 128 / 16 ^ (31 - i) % 16))

/-- `str(uuid.uuid4())` given the 128 random bits: 32 hex digits in
groups 8-4-4-4-12 joined by dashes. -/
def uuidFormat (n : Nat) : String :=
  let h := uuidNibbles n
  String.mk (h.take 8) ++ "-" ++ String.mk ((h.drop 8).take 4) ++ "-" ++
  String.mk ((h.drop 12).take 4) ++ "-" ++ String.mk ((h.drop 16).take 4) ++ "-" ++
  String.mk (h.drop 20)

def pad2 (n : Nat) : String := if n < 10 then "0" ++ toString n else toString n

/-- Civil date (year, month, day) from days since 1970-01-01
(Gregorian calendar). -/
def civilFromDays (z0 : Nat) : Nat × Nat × Nat :=
  let z := z0 + 719468
  let era := z / 146097
  let doe := z % 146097
  let yoe := (doe - doe / 1460 + doe / 36524 - doe / 146096) / 365
  let y := yoe + era * 400
  let doy := doe - (365 * yoe + yoe / 4 - yoe / 100)
  let mp := (5 * doy + 2) / 153
  let d := doy - (153 * mp + 2) / 5 + 1
  let m := if mp < 10 then mp + 3 else mp - 9
  (if m ≤ 2 then y + 1 else y, m, d)

/-- `datetime.utcnow().strftime("%Y-%m-%d %H:%M:%S")` of an epoch
seconds count. -/
def fmtUtc (secs : Nat) : String :=
  let ymd := civilFromDays (secs / 86400)
  let rem := secs % 86400
  toString ymd.1 ++ "-" ++ pad2 ymd.2.1 ++ "-" ++ pad2 ymd.2.2 ++ " " ++
  pad2 (rem / 3600) ++ ":" ++ pad2 (rem % 3600 / 60) ++ ":" ++ pad2 (rem % 60)

/-- `datetime.utcnow().strftime("%Y%m%d%H%M%S")` — the stored-file
name prefix. -/
def fmtUtcCompact (secs : Nat) : String :=
  let ymd := civilFromDays (secs / 86400)
  let rem := secs % 86400
  toString ymd.1 ++ pad2 ymd.2.1 ++ pad2 ymd.2.2 ++
  pad2 (rem / 3600) ++ pad2 (rem % 3600 / 60) ++ pad2 (rem % 60)

/-!  Data model: FSM states, per-conversation draft data, the record
built at confirmation, outbound effects, and the ambient environment
(user identity, clock, randomness, external-collaborator failure
flags, the store's range query). -/

/-- The `CheckUpStates` group, plus `idle` for "no state set"
(aiogram's default state `None`). -/
inductive ConvState where
  | idle | address | cadastral | who | whoOther | docs | comment | confirm
deriving Repr, DecidableEq

/-- The FSM storage data dict: keys `address`, `cadastral`, `who`,
`comment` (absent = `none`) and `files` (absent modelled as `[]`,
matching `data.get("files", []) or []`). -/
structure Draft where
  address : Option String
  cadastral : Option String
  who : Option String
  files : List String
  comment : Option String
deriving Repr, DecidableEq

def emptyDraft : Draft := ⟨none, none, none, [], none⟩

/-- The `rec` dict built in `process_confirm` (and the preview dict in
`process_comment`). -/
structure Rec where
  id : String
  user_id : Int
  username : String
  address : Option String
  cadastral : Option String
  who : Option String
  comment : Option String
  files : List String
  created_at : String
deriving Repr, DecidableEq

/-- Outbound calls to the external collaborators (chat transport,
database, filesystem, spreadsheet writer). -/
inductive Effect where
  | reply (msg : String)
  | insertDB (r : Rec)
  | saveFile (name : String)
  | notifyAdmin (txt : String)
  | sendDocToAdmin (name : String)
  | sendPhotoToAdmin (name : String)
  | logNotifyError
  | logFileError (name : String)
  | queryDB (days : Nat)
  | buildSheet (days : Nat) (rows : List (List String))
  | sendReportDoc (filename : String)
deriving Repr, DecidableEq

/-- Per-event ambient environment: who sent the message, the clock and
uuid randomness at handling time, which transport sends fail (the
failure modes the code catches), which stored files exist, and the
store's range query. -/
structure Env where
  userId : Int
  username : Option String
  fullName : String
  uuid : Nat
  now : Nat
  notifyFails : Bool
  fileSendFails : String → Bool
  fileExists : String → Bool
  fetch : Nat → List (List String)

/-- A conversation: current FSM state plus its draft data. -/
structure Conv where
  state : ConvState
  draft : Draft
deriving Repr, DecidableEq

/-- Result of handling one event: the new conversation and the
outbound effects, in order. -/
structure Res where
  conv : Conv
  effects : List Effect
deriving Repr, DecidableEq

/-- Incoming events: a text message, a document (declared mime type,
declared size, original file name — each optional on the wire), or a
photo (declared size of the largest rendition). -/
inductive Event where
  | text (t : String)
  | document (mime : Option String) (size : Option Nat) (name : Option String)
  | photo (size : Option Nat)
deriving Repr, DecidableEq

def ADMIN_CHAT_ID : Int := 924325909

def ALLOWED_DOC_TYPES : List String := ["application/pdf", "image/jpeg", "image/png"]

def MAX_FILE_SIZE : Nat := 20 * 1024 * 1024

/-!  Message texts, verbatim from the source. -/

def msgWelcome : String :=
  "Привет! 👋 Я помогу подготовить запрос на проверку объекта недвижимости.\n\nНажмите «Создать новый запрос», чтобы начать."

def msgCancelled : String := "Операция отменена. Если нужно — начните заново."

def msgAskAddress : String :=
  "Введите адрес объекта (улица, дом, город). Если нет — укажите ориентир или ссылку на карту."

def msgBadAddress : String :=
  "Пожалуйста, укажите более точный адрес (минимум улица + дом или город)."

def msgAskCadastral : String :=
  "Укажите кадастровый номер (пример: 77:01:0004010:1234) или напишите \"нет\"."

def msgBadCadastral : String :=
  "Неправильный формат кадастрового номера. Введите в формате 77:01:0004010:1234 или напишите \"нет\"."

def msgAskWho : String := "Кто отправляет запрос?"

def msgAskWhoOther : String :=
  "Напишите, пожалуйста, кем вы являетесь (например, \"юрист покупателя\")."

def msgPickOption : String := "Выберите один из вариантов или \"Другое\"."

def msgAskDocs : String :=
  "Прикрепите документы (PDF, JPG, PNG) или нажмите «Пропустить» / «Готово»."

def msgSendFile : String :=
  "Пришлите файл (PDF/JPG/PNG). Можно несколько — по одному. Когда закончите — нажмите «Готово»."

def msgDocsPrompt : String := "Прикрепите файл или нажмите «Пропустить» / «Готово»."

def msgWrongType : String := "Неподдерживаемый формат. Допускаются PDF, JPG, PNG."

def msgTooLarge : String := "Файл слишком большой — ограничение 20 MB."

def msgSaved (dest : String) : String :=
  "Файл " ++ dest ++ " сохранён. Отправьте ещё файлы или нажмите «Готово»."

def msgAskComment : String := "Оставьте комментарий к запросу (или напишите \"нет\")."

def msgSuccess : String := "Спасибо! Ваш запрос отправлен эксперту 🧾"

def msgLetsEdit : String := "Давайте изменим. Введите корректный адрес."

def msgChooseAction : String :=
  "Выберите действие: Отправить эксперту / Изменить данные / Отмена."

def msgNotAdmin : String := "⛔ Эта команда доступна только эксперту."

def msgReportUsage : String :=
  "Использование: /report <кол-во_дней> (например, /report 30)"

def msgForming (days : Nat) : String :=
  "📊 Формирую отчёт за последние " ++ toString days ++ " дней..."

def msgNoRows : String := "За указанный период заявок не найдено."

def msgWhoami (id : Int) : String := "Ваш chat_id: <code>" ++ toString id ++ "</code>"

/-- aiogram `escape_html`: `&`, `<`, `>` replaced by entities. -/
def escapeHtmlChar (c : Char) : List Char :=
  if c = '&' then "&amp;".data
  else if c = '<' then "&lt;".data
  else if c = '>' then "&gt;".data
  else [c]

def escapeHtml (s : String) : String :=
  String.mk (s.data.foldr (fun c acc => escapeHtmlChar c ++ acc) [])

/-- `fmt_request_message` from the source (the record's optional
fields rendered as `-` when unset, matching the dict defaults). -/
def fmt_request_message (r : Rec) : String :=
  "<b>Запрос на проверку объекта недвижимости</b>" ++ "\n" ++ "\n" ++
  "🏠 <b>Адрес:</b> " ++ escapeHtml (r.address.getD "-") ++ "\n" ++
  "📇 <b>Кадастровый номер:</b> " ++ escapeHtml (r.cadastral.getD "-") ++ "\n" ++
  "👤 <b>Тип заявителя:</b> " ++ escapeHtml (r.who.getD "-") ++ "\n" ++
  "📎 <b>Приложения:</b>\n" ++
    (if r.files.isEmpty then "-"
     else String.intercalate "\n" (r.files.map (fun f => "- " ++ f))) ++ "\n" ++
  "📝 <b>Комментарий:</b> " ++ escapeHtml (r.comment.getD "-") ++ "\n" ++
  "\n📅 <b>Дата запроса:</b> " ++ r.created_at ++ " (UTC)" ++ "\n" ++
  "\n🆔 <b>User:</b> " ++ toString r.user_id ++ " (" ++ escapeHtml r.username ++ ")" ++ "\n" ++
  "🔎 <b>ID заявки:</b> " ++ r.id

/-!  Handlers, one per source handler, in source order.  Each returns
the next conversation (state + data) and the outbound effects. -/

/-- `cmd_start` (`/start`, `/help`, any state): `state.finish()` —
state and data cleared — then the welcome menu. -/
def cmd_start : Res := ⟨⟨.idle, emptyDraft⟩, [.reply msgWelcome]⟩

/-- `cmd_cancel` (exact text `Отмена`, any state): `state.finish()` —
state and data cleared. -/
def cmd_cancel : Res := ⟨⟨.idle, emptyDraft⟩, [.reply msgCancelled]⟩

/-- `start_request` (exact text `Создать новый запрос`, any state):
sets the ADDRESS state; the stored data is left untouched. -/
def start_request (d : Draft) : Res := ⟨⟨.address, d⟩, [.reply msgAskAddress]⟩

/-- `process_address` (state ADDRESS, text). -/
def process_address (d : Draft) (t : String) : Res :=
  let text := t.pyStrip
  if pyLower text = "отмена" then cmd_cancel
  else if !validate_address text then ⟨⟨.address, d⟩, [.reply msgBadAddress]⟩
  else ⟨⟨.cadastral, { d with address := some text }⟩, [.reply msgAskCadastral]⟩

/-- `process_cadastral` (state CADASTRAL, text). -/
def process_cadastral (d : Draft) (t : String) : Res :=
  let text := t.pyStrip
  if pyLower text = "отмена" then cmd_cancel
  else if !validate_cadastral text then ⟨⟨.cadastral, d⟩, [.reply msgBadCadastral]⟩
  else ⟨⟨.who, { d with cadastral := some text }⟩, [.reply msgAskWho]⟩

/-- `process_who` (state WHO, text). -/
def process_who (d : Draft) (t : String) : Res :=
  let text := t.pyStrip
  if pyLower text = "отмена" then cmd_cancel
  else if text = "Другое" then ⟨⟨.whoOther, d⟩, [.reply msgAskWhoOther]⟩
  else if text ≠ "Агент" ∧ text ≠ "Владелец" then ⟨⟨.who, d⟩, [.reply msgPickOption]⟩
  else ⟨⟨.docs, { d with who := some text }⟩, [.reply msgAskDocs]⟩

/-- `process_who_other` (state WHO_OTHER, text): any text is accepted
as the role. -/
def process_who_other (d : Draft) (t : String) : Res :=
  let text := t.pyStrip
  if pyLower text = "отмена" then cmd_cancel
  else ⟨⟨.docs, { d with who := some text }⟩, [.reply msgAskDocs]⟩

/-- The stored-file name: utc compact timestamp, underscore, the
per-kind file name (original name for documents, generated for
photos). -/
def destName (now : Nat) (filename : String) : String :=
  fmtUtcCompact now ++ "_" ++ filename

/-- The shared tail of `process_docs` for a file message: mime-type
check, then size check, then download-and-append. -/
def acceptFile (env : Env) (d : Draft) (mime : Option String) (file_size : Nat)
    (filename : String) : Res :=
  if !(match mime with | some m => ALLOWED_DOC_TYPES.contains m | none => false) then
    ⟨⟨.docs, d⟩, [.reply msgWrongType]⟩
  else if MAX_FILE_SIZE < file_size then ⟨⟨.docs, d⟩, [.reply msgTooLarge]⟩
  else
    let dest := destName env.now filename
    ⟨⟨.docs, { d with files := d.files ++ [dest] }⟩,
      [.saveFile dest, .reply (msgSaved dest)]⟩

/-- `process_docs` (state DOCS, text/document/photo). -/
def process_docs (env : Env) (d : Draft) (e : Event) : Res :=
  match e with
  | .text t =>
    let txt := t.pyStrip
    if pyLower txt = "отмена" then cmd_cancel
    else if txt = "Пропустить" ∨ txt = "Готово" then
      ⟨⟨.comment, { d with files := d.files }⟩, [.reply msgAskComment]⟩
    else if txt = "Загрузить документ" then ⟨⟨.docs, d⟩, [.reply msgSendFile]⟩
    else ⟨⟨.docs, d⟩, [.reply msgDocsPrompt]⟩
  | .document mime size name =>
    acceptFile env d mime (size.getD 0)
      (name.getD ("doc_" ++ uuidFormat env.uuid ++ ".pdf"))
  | .photo size =>
    acceptFile env d (some "image/jpeg") (size.getD 0)
      ("photo_" ++ uuidFormat env.uuid ++ ".jpg")

/-- The preview dict built in `process_comment` (id rendered as an em
dash, timestamp taken at preview time). -/
def previewRec (env : Env) (d : Draft) : Rec :=
  ⟨"—", env.userId, env.username.getD env.fullName, d.address, d.cadastral,
    d.who, d.comment, d.files, fmtUtc env.now⟩

/-- `process_comment` (state COMMENT, text): empty text defaults to
`нет`; stores the comment and renders the preview. -/
def process_comment (env : Env) (d : Draft) (t : String) : Res :=
  let text := t.pyStrip
  if pyLower text = "отмена" then cmd_cancel
  else
    let text := if text = "" then "нет" else text
    let d2 : Draft := { d with comment := some text }
    ⟨⟨.confirm, d2⟩, [.reply (fmt_request_message (previewRec env d2))]⟩

/-- The `rec` dict built in `process_confirm` on `Отправить эксперту`:
fresh uuid, draft fields verbatim, utc timestamp at confirmation. -/
def buildRec (env : Env) (d : Draft) : Rec :=
  ⟨uuidFormat env.uuid, env.userId, env.username.getD env.fullName, d.address,
    d.cadastral, d.who, d.comment, d.files, fmtUtc env.now⟩

/-- The per-file forwarding loop inside the operator-notification
`try`: missing files are skipped, a failing send is logged and the
loop continues, `.pdf` goes as a document and the rest as photos. -/
def sendFilesEffects (env : Env) (files : List String) : List Effect :=
  files.foldr
    (fun f acc =>
      if !env.fileExists f then acc
      else if env.fileSendFails f then .logFileError f :: acc
      else if strEndsWith (pyLower f) ".pdf" then .sendDocToAdmin f :: acc
      else .sendPhotoToAdmin f :: acc)
    []

/-- The operator notification of `process_confirm`: if the initial
`send_message` raises, the whole block is abandoned and logged;
otherwise the attachment files are forwarded one by one. -/
def notifyEffects (env : Env) (r : Rec) : List Effect :=
  if env.notifyFails then [.logNotifyError]
  else .notifyAdmin (fmt_request_message r) :: sendFilesEffects env r.files

/-- `process_confirm` (state CONFIRM, text).  On `Отправить эксперту`:
insert into the store, best-effort notify, success reply,
`state.finish()`.  On `Изменить данные`: back to ADDRESS with the data
kept.  Note the cancel test here is the exact `Отмена` (no
lowercasing). -/
def process_confirm (env : Env) (d : Draft) (t : String) : Res :=
  let text := t.pyStrip
  if text = "Отправить эксперту" then
    let r := buildRec env d
    ⟨⟨.idle, emptyDraft⟩, .insertDB r :: notifyEffects env r ++ [.reply msgSuccess]⟩
  else if text = "Изменить данные" then ⟨⟨.address, d⟩, [.reply msgLetsEdit]⟩
  else if text = "Отмена" then cmd_cancel
  else ⟨⟨.confirm, d⟩, [.reply msgChooseAction]⟩

/-- The body of `cmd_report` after argument parsing: progress reply,
range query, then either the empty-result reply or the spreadsheet
build-and-send. -/
def reportBody (env : Env) (days : Nat) : List Effect :=
  let rows := env.fetch days
  .reply (msgForming days) :: .queryDB days ::
    (if rows.isEmpty then [.reply msgNoRows]
     else [.buildSheet days rows,
           .sendReportDoc ("requests_report_" ++ toString days ++ "d.xlsx")])

/-- `cmd_report` (`/report`, reachable only with no state set): admin
gate, then `days = 7`, overridden when the argument is a digit string,
usage reply when the argument is nonempty and not a digit string. -/
def cmd_report (env : Env) (args : String) : List Effect :=
  if env.userId ≠ ADMIN_CHAT_ID then [.reply msgNotAdmin]
  else if args ≠ "" && pyIsDigit args then reportBody env (pyInt args)
  else if args ≠ "" then [.reply msgReportUsage]
  else reportBody env 7

/-- aiogram's command filter: the message text is `/cmd` or starts
with `/cmd `. -/
def isCommand (t : String) (cmd : String) : Bool :=
  t = "/" ++ cmd || strStartsWith t ("/" ++ cmd ++ " ")

/-- `message.get_args()`: the text after the first space. -/
def get_args (t : String) : String :=
  match splitSpace t.data with
  | [] => ""
  | _ :: rest => String.mk (joinSpace rest)

/-- The dispatcher: the first registered handler whose filters match
receives the message, in the source's registration order —
`cmd_start`, `cmd_whoami`, `cmd_cancel`, `start_request`, the
state-bound handlers, and last `cmd_report` (which therefore only
fires with no state set).  Non-text events match only the DOCS
handler. -/
def handle (env : Env) (c : Conv) (e : Event) : Res :=
  match e with
  | .text t =>
    if isCommand t "start" || isCommand t "help" then cmd_start
    else if isCommand t "whoami" then ⟨c, [.reply (msgWhoami env.userId)]⟩
    else if t = "Отмена" then cmd_cancel
    else if t = "Создать новый запрос" then start_request c.draft
    else
      match c.state with
      | .address => process_address c.draft t
      | .cadastral => process_cadastral c.draft t
      | .who => process_who c.draft t
      | .whoOther => process_who_other c.draft t
      | .docs => process_docs env c.draft e
      | .comment => process_comment env c.draft t
      | .confirm => process_confirm env c.draft t
      | .idle =>
        if isCommand t "report" then ⟨c, cmd_report env (get_args t)⟩
        else ⟨c, []⟩
  | _ =>
    match c.state with
    | .docs => process_docs env c.draft e
    | _ => ⟨c, []⟩

/-- Folding a trace of events (each with its ambient environment)
through the dispatcher. -/
def run (c : Conv) (tr : List (Event × Env)) : Conv :=
  tr.foldl (fun c p => (handle p.2 c p.1).conv) c

/-- The initial conversation: no state set, no stored data. -/
def initConv : Conv := ⟨.idle, emptyDraft⟩

/-!  Derived definitions used by the statements below. -/

/-- Joining segments back with `:` — the left inverse of
`splitColon`. -/
def joinColon : List (List Char) → List Char
  | [] => []
  | [x] => x
  | x :: xs => x ++ ':' :: joinColon xs

/-- The completeness invariant of a reachable conversation: by the
time a state is reached, the fields the earlier steps store are
present (attachments may be empty throughout). -/
def draftInvB (c : Conv) : Bool :=
  match c.state with
  | .idle | .address => true
  | .cadastral => c.draft.address.isSome
  | .who | .whoOther => c.draft.address.isSome && c.draft.cadastral.isSome
  | .docs | .comment =>
    c.draft.address.isSome && c.draft.cadastral.isSome && c.draft.who.isSome
  | .confirm =>
    c.draft.address.isSome && c.draft.cadastral.isSome && c.draft.who.isSome &&
    c.draft.comment.isSome

/-- A text that is an in-conversation answer rather than one of the
globally registered commands or a cancel interpretation. -/
def plainText (t : String) : Prop :=
  isCommand t "start" = false ∧ isCommand t "help" = false ∧
  isCommand t "whoami" = false ∧ t ≠ "Отмена" ∧ t ≠ "Создать новый запрос" ∧
  pyLower t.pyStrip ≠ "отмена"

instance (t : String) : Decidable (plainText t) :=
  inferInstanceAs (Decidable (isCommand t "start" = false ∧ isCommand t "help" = false ∧
    isCommand t "whoami" = false ∧ t ≠ "Отмена" ∧ t ≠ "Создать новый запрос" ∧
    pyLower t.pyStrip ≠ "отмена"))

/-- A text that fails validation or matches no expected option of the
given state (the recoverable re-prompt situations of the source). -/
def unrecognizedIn (s : ConvState) (t : String) : Prop :=
  match s with
  | .address => validate_address t.pyStrip = false
  | .cadastral => validate_cadastral t.pyStrip = false
  | .who => t.pyStrip ≠ "Другое" ∧ t.pyStrip ≠ "Агент" ∧ t.pyStrip ≠ "Владелец"
  | .docs => t.pyStrip ≠ "Пропустить" ∧ t.pyStrip ≠ "Готово" ∧ t.pyStrip ≠ "Загрузить документ"
  | .confirm => t.pyStrip ≠ "Отправить эксперту" ∧ t.pyStrip ≠ "Изменить данные" ∧ t.pyStrip ≠ "Отмена"
  | _ => False

instance (s : ConvState) (t : String) : Decidable (unrecognizedIn s t) :=
  match s with
  | .idle => inferInstanceAs (Decidable False)
  | .address => inferInstanceAs (Decidable (validate_address t.pyStrip = false))
  | .cadastral => inferInstanceAs (Decidable (validate_cadastral t.pyStrip = false))
  | .who =>
    inferInstanceAs (Decidable (t.pyStrip ≠ "Другое" ∧ t.pyStrip ≠ "Агент" ∧ t.pyStrip ≠ "Владелец"))
  | .whoOther => inferInstanceAs (Decidable False)
  | .docs =>
    inferInstanceAs
      (Decidable (t.pyStrip ≠ "Пропустить" ∧ t.pyStrip ≠ "Готово" ∧ t.pyStrip ≠ "Загрузить документ"))
  | .comment => inferInstanceAs (Decidable False)
  | .confirm =>
    inferInstanceAs
      (Decidable (t.pyStrip ≠ "Отправить эксперту" ∧ t.pyStrip ≠ "Изменить данные" ∧ t.pyStrip ≠ "Отмена"))

/-- The re-prompt the source sends for an unrecognized text in each
state. -/
def repromptMsg (s : ConvState) : String :=
  match s with
  | .address => msgBadAddress
  | .cadastral => msgBadCadastral
  | .who => msgPickOption
  | .docs => msgDocsPrompt
  | .confirm => msgChooseAction
  | _ => ""

/-- A file event the DOCS acceptance policy admits: declared kind
among the allowed mime types and declared size at most 20 MiB
(photos always carry the jpeg kind). -/
def acceptedFile : Event × Env → Prop
  | (.document (some m) sz _, _) =>
    ALLOWED_DOC_TYPES.contains m = true ∧ sz.getD 0 ≤ MAX_FILE_SIZE
  | (.photo sz, _) => sz.getD 0 ≤ MAX_FILE_SIZE
  | _ => False

instance (p : Event × Env) : Decidable (acceptedFile p) :=
  match p with
  | (.document (some m) sz _, _) =>
    inferInstanceAs (Decidable (ALLOWED_DOC_TYPES.contains m = true ∧ sz.getD 0 ≤ MAX_FILE_SIZE))
  | (.document none _ _, _) => inferInstanceAs (Decidable False)
  | (.photo sz, _) => inferInstanceAs (Decidable (sz.getD 0 ≤ MAX_FILE_SIZE))
  | (.text _, _) => inferInstanceAs (Decidable False)

/-- The name under which an accepted file event is stored and
recorded in the draft. -/
def storedName : Event × Env → String
  | (.document _ _ name, env) =>
    destName env.now (name.getD ("doc_" ++ uuidFormat env.uuid ++ ".pdf"))
  | (.photo _, env) => destName env.now ("photo_" ++ uuidFormat env.uuid ++ ".jpg")
  | (.text _, _) => ""

/-- A concrete environment for evaluating the machine on closed
traces: an ordinary user, a fixed clock and uuid seed, no transport
failures, all stored files present, an empty store. -/
def envW : Env :=
  ⟨555, some "user", "User Name", 42, 1000000, false,
    fun _ => false, fun _ => true, fun _ => []⟩

/-!  Theorems. -/

theorem splitColon_ne_nil (l : List Char) : splitColon l ≠ [] := by
  induction l with
  | nil => simp [splitColon]
  | cons c rest ih =>
    simp only [splitColon]
    split
    · simp
    · cases h : splitColon rest with
      | nil => exact absurd h ih
      | cons s ss => simp [h]

theorem joinColon_splitColon (l : List Char) : joinColon (splitColon l) = l := by
  induction l with
  | nil => rfl
  | cons c rest ih =>
    by_cases hc : c = ':'
    · subst hc
      simp only [splitColon, if_pos rfl]
      cases h : splitColon rest with
      | nil => exact absurd h (splitColon_ne_nil rest)
      | cons s ss =>
        rw [h] at ih
        simp only [joinColon]
        simp [ih]
    · simp only [splitColon, if_neg hc]
      cases h : splitColon rest with
      | nil => exact absurd h (splitColon_ne_nil rest)
      | cons s ss =>
        rw [h] at ih
        cases ss with
        | nil => simp only [joinColon] at ih ⊢; simp [ih]
        | cons s2 ss2 => simp only [joinColon] at ih ⊢; simp [ih]

theorem splitColon_no_colon (l : List Char) (h : ∀ c ∈ l, c ≠ ':') :
    splitColon l = [l] := by
  induction l with
  | nil => rfl
  | cons c rest ih =>
    have hc : c ≠ ':' := h c (by simp)
    have h2 : splitColon rest = [rest] := ih (fun x hx => h x (by simp [hx]))
    simp [splitColon, hc, h2]

theorem splitColon_append (a r : List Char) (h : ∀ c ∈ a, c ≠ ':') :
    splitColon (a ++ ':' :: r) = a :: splitColon r := by
  induction a with
  | nil => simp [splitColon]
  | cons x xs ih =>
    have hx : x ≠ ':' := h x (by simp)
    have ih2 := ih (fun c hc => h c (by simp [hc]))
    simp [splitColon, hx, ih2]

theorem digitSeg_no_colon (l : List Char) (m : Nat) (h : digitSeg l m = true) :
    ∀ c ∈ l, c ≠ ':' := by
  simp only [digitSeg, Bool.and_eq_true, List.all_eq_true] at h
  intro c hc hcol
  have := h.2 c hc
  subst hcol
  simp [Char.isDigit] at this

theorem cadastralMatch_iff (s : String) :
    cadastralMatch s = true ↔
      ∃ a b c d : List Char,
        s.data = a ++ ':' :: b ++ ':' :: c ++ ':' :: d ∧
        digitSeg a 3 = true ∧ digitSeg b 3 = true ∧
        digitSeg c 10 = true ∧ digitSeg d 10 = true := by
  constructor
  · intro h
    unfold cadastralMatch at h
    rcases hsp : splitColon s.data with _ | ⟨a, _ | ⟨b, _ | ⟨c, _ | ⟨d, _ | _⟩⟩⟩⟩ <;>
      rw [hsp] at h
    · simp at h
    · simp at h
    · simp at h
    · simp at h
    · replace h : (digitSeg a 3 && digitSeg b 3 && digitSeg c 10 && digitSeg d 10) = true := h
      simp only [Bool.and_eq_true] at h
      refine ⟨a, b, c, d, ?_, h.1.1.1, h.1.1.2, h.1.2, h.2⟩
      have hj := joinColon_splitColon s.data
      rw [hsp] at hj
      rw [← hj]
      simp [joinColon]
    · simp at h
  · rintro ⟨a, b, c, d, hdecomp, ha, hb, hc, hd⟩
    unfold cadastralMatch
    rw [hdecomp]
    simp only [List.cons_append, List.append_assoc]
    rw [splitColon_append a _ (digitSeg_no_colon a 3 ha),
        splitColon_append b _ (digitSeg_no_colon b 3 hb),
        splitColon_append c _ (digitSeg_no_colon c 10 hc),
        splitColon_no_colon d (digitSeg_no_colon d 10 hd)]
    simp [ha, hb, hc, hd]

/-- C3 counterexample: on the input `" нет "` the trimmed,
case-insensitive form equals the sentinel `нет`, so the claim says
`isValidCadastralNumber` returns true; the code lowercases the *raw*
(untrimmed) text for the sentinel test and therefore returns false. -/
theorem c3_counterexample :
    pyLower " нет ".pyStrip = "нет" ∧
    validate_cadastral " нет " = false ∧
    cadastralSpec " нет " = true := by decide

/-- C3 (amended): `validate_cadastral t` is true iff the
*case-insensitive but untrimmed* text equals one of the sentinels
`нет`/`n`/`no`, or the *trimmed* text decomposes into four
colon-separated nonempty all-digit segments of lengths at most
3, 3, 10, 10; in particular it is true on `77:01:0004010:1234` and
`нет`, and false on `77:01:1234` and the empty string. -/
theorem c3_cadastral_characterization :
    (∀ t : String,
      validate_cadastral t = true ↔
        ((pyLower t = "нет" ∨ pyLower t = "n" ∨ pyLower t = "no") ∨
         ∃ a b c d : List Char,
           t.pyStrip.data = a ++ ':' :: b ++ ':' :: c ++ ':' :: d ∧
           digitSeg a 3 = true ∧ digitSeg b 3 = true ∧
           digitSeg c 10 = true ∧ digitSeg d 10 = true)) ∧
    validate_cadastral "77:01:0004010:1234" = true ∧
    validate_cadastral "нет" = true ∧
    validate_cadastral "77:01:1234" = false ∧
    validate_cadastral "" = false := by
  refine ⟨?_, by decide, by decide, by decide, by decide⟩
  intro t
  unfold validate_cadastral
  split
  · simp only [true_iff]
    left
    assumption
  · rename_i hsent
    rw [cadastralMatch_iff]
    constructor
    · intro h
      exact Or.inr h
    · rintro (h | h)
      · exact absurd h hsent
      · exact h

/-- C3 witness: the characterization applied at a concrete pattern
input. -/
theorem c3_witness : validate_cadastral "1:2:3:4" = true := by
  apply (c3_cadastral_characterization.1 "1:2:3:4").mpr
  right
  exact ⟨['1'], ['2'], ['3'], ['4'], by decide, by decide, by decide, by decide⟩

/-- C2: from every non-IDLE state, a text event with the cancel
command `Отмена` is dispatched to `cmd_cancel` before any state
handler can interpret it: the machine finishes to IDLE with the data
cleared, and a subsequent new-request start begins with no residual
fields. -/
theorem c2_cancel_always_wins (s : ConvState) (d : Draft) (env env2 : Env)
    (_h : s ≠ ConvState.idle) :
    handle env ⟨s, d⟩ (.text "Отмена") = ⟨⟨.idle, emptyDraft⟩, [.reply msgCancelled]⟩ ∧
    handle env2 ⟨.idle, emptyDraft⟩ (.text "Создать новый запрос") =
      ⟨⟨.address, emptyDraft⟩, [.reply msgAskAddress]⟩ :=
  ⟨rfl, rfl⟩

/-- C2 witness: cancel from CADASTRAL with a partially filled draft. -/
theorem c2_witness :
    handle envW ⟨.cadastral, ⟨some "Улица 5", none, none, [], none⟩⟩ (.text "Отмена") =
      ⟨⟨.idle, emptyDraft⟩, [.reply msgCancelled]⟩ ∧
    handle envW ⟨.idle, emptyDraft⟩ (.text "Создать новый запрос") =
      ⟨⟨.address, emptyDraft⟩, [.reply msgAskAddress]⟩ :=
  c2_cancel_always_wins .cadastral ⟨some "Улица 5", none, none, [], none⟩ envW envW
    (by decide)

/-- C4: in DOCS, a document event is accepted — stored name appended —
exactly when its declared mime type is allowed and its declared size
is at most 20 MiB; a disallowed type gets the wrong-type re-prompt
(checked first), an allowed type over the limit gets the distinct
too-large re-prompt, and in both rejection cases the draft is
unchanged. -/
theorem c4_docs_acceptance (env : Env) (d : Draft) (m : String) (sz : Option Nat)
    (nm : String) :
    (ALLOWED_DOC_TYPES.contains m = true → sz.getD 0 ≤ MAX_FILE_SIZE →
      handle env ⟨.docs, d⟩ (.document (some m) sz (some nm)) =
        ⟨⟨.docs, { d with files := d.files ++ [destName env.now nm] }⟩,
          [.saveFile (destName env.now nm), .reply (msgSaved (destName env.now nm))]⟩) ∧
    (ALLOWED_DOC_TYPES.contains m = false →
      handle env ⟨.docs, d⟩ (.document (some m) sz (some nm)) =
        ⟨⟨.docs, d⟩, [.reply msgWrongType]⟩) ∧
    (ALLOWED_DOC_TYPES.contains m = true → MAX_FILE_SIZE < sz.getD 0 →
      handle env ⟨.docs, d⟩ (.document (some m) sz (some nm)) =
        ⟨⟨.docs, d⟩, [.reply msgTooLarge]⟩) ∧
    handle env ⟨.docs, d⟩ (.document none sz (some nm)) =
      ⟨⟨.docs, d⟩, [.reply msgWrongType]⟩ ∧
    msgTooLarge ≠ msgWrongType := by
  refine ⟨?_, ?_, ?_, by simp [handle, process_docs, acceptFile], by decide⟩
  · intro hm hsz
    have hm2 : m ∈ ALLOWED_DOC_TYPES := by simpa using hm
    simp [handle, process_docs, acceptFile, hm2, Nat.not_lt.mpr hsz, destName]
  · intro hm
    have hm2 : m ∉ ALLOWED_DOC_TYPES := by simpa using hm
    simp [handle, process_docs, acceptFile, hm2]
  · intro hm hsz
    have hm2 : m ∈ ALLOWED_DOC_TYPES := by simpa using hm
    simp [handle, process_docs, acceptFile, hm2, hsz]

/-- C4 witness: a PDF of exactly 20 MiB is accepted; the same file one
byte larger is rejected with the too-large message. -/
theorem c4_witness :
    handle envW ⟨.docs, emptyDraft⟩
        (.document (some "application/pdf") (some (20 * 1024 * 1024)) (some "a.pdf")) =
      ⟨⟨.docs, { emptyDraft with files := [destName envW.now "a.pdf"] }⟩,
        [.saveFile (destName envW.now "a.pdf"), .reply (msgSaved (destName envW.now "a.pdf"))]⟩ ∧
    handle envW ⟨.docs, emptyDraft⟩
        (.document (some "application/pdf") (some (20 * 1024 * 1024 + 1)) (some "a.pdf")) =
      ⟨⟨.docs, emptyDraft⟩, [.reply msgTooLarge]⟩ := by
  constructor
  · have h := (c4_docs_acceptance envW emptyDraft "application/pdf"
      (some (20 * 1024 * 1024)) "a.pdf").1 (by decide) (by decide)
    simpa [emptyDraft] using h
  · exact (c4_docs_acceptance envW emptyDraft "application/pdf"
      (some (20 * 1024 * 1024 + 1)) "a.pdf").2.2.1 (by decide) (by decide)

/-- C6: on `send` from AWAIT_CONFIRM, the store insert happens first
and the built record does not depend on the notification-failure or
file-send-failure flags; whatever those flags are, the user gets the
success acknowledgment and the machine finishes to IDLE (the failing
sends are only logged, as `notifyEffects` encodes the source's
`try/except`). -/
theorem c6_notify_failure_tolerated (env : Env) (d : Draft) (b : Bool)
    (g : String → Bool) :
    handle { env with notifyFails := b, fileSendFails := g } ⟨.confirm, d⟩
        (.text "Отправить эксперту") =
      ⟨⟨.idle, emptyDraft⟩,
        .insertDB (buildRec env d) ::
          notifyEffects { env with notifyFails := b, fileSendFails := g } (buildRec env d) ++
          [.reply msgSuccess]⟩ ∧
    buildRec { env with notifyFails := b, fileSendFails := g } d = buildRec env d ∧
    .insertDB (buildRec env d) ∈
      (handle { env with notifyFails := b, fileSendFails := g } ⟨.confirm, d⟩
        (.text "Отправить эксперту")).effects ∧
    .reply msgSuccess ∈
      (handle { env with notifyFails := b, fileSendFails := g } ⟨.confirm, d⟩
        (.text "Отправить эксперту")).effects ∧
    (b = true →
      notifyEffects { env with notifyFails := b, fileSendFails := g } (buildRec env d) =
        [Effect.logNotifyError]) := by
  refine ⟨rfl, rfl, ?_, ?_, ?_⟩
  · exact List.mem_cons_self _ _
  · show _ ∈ (.insertDB (buildRec env d) ::
      notifyEffects { env with notifyFails := b, fileSendFails := g } (buildRec env d) ++
      [.reply msgSuccess] : List Effect)
    simp
  · intro hb
    simp [notifyEffects, hb]

/-- C6 witness: with the operator notification failing, the send step
still emits the success acknowledgment and the failure is only
logged. -/
theorem c6_witness :
    Effect.reply msgSuccess ∈
      (handle { envW with notifyFails := true } ⟨.confirm, emptyDraft⟩
        (.text "Отправить эксперту")).effects ∧
    notifyEffects { envW with notifyFails := true } (buildRec envW emptyDraft) =
      [Effect.logNotifyError] := by
  have h := c6_notify_failure_tolerated envW emptyDraft true envW.fileSendFails
  exact ⟨h.2.2.2.1, h.2.2.2.2 rfl⟩

/-!  Step lemmas for the valid traversal, shared by the edit-loop and
round-trip theorems. -/

theorem handle_address_valid (env : Env) (d : Draft) (t : String)
    (hp : plainText t) (hv : validate_address t.pyStrip = true) :
    handle env ⟨.address, d⟩ (.text t) =
      ⟨⟨.cadastral, { d with address := some t.pyStrip }⟩, [.reply msgAskCadastral]⟩ := by
  obtain ⟨h1, h2, h3, h4, h5, h6⟩ := hp
  simp [handle, process_address, h1, h2, h3, h4, h5, h6, hv]

theorem handle_cadastral_valid (env : Env) (d : Draft) (t : String)
    (hp : plainText t) (hv : validate_cadastral t.pyStrip = true) :
    handle env ⟨.cadastral, d⟩ (.text t) =
      ⟨⟨.who, { d with cadastral := some t.pyStrip }⟩, [.reply msgAskWho]⟩ := by
  obtain ⟨h1, h2, h3, h4, h5, h6⟩ := hp
  simp [handle, process_cadastral, h1, h2, h3, h4, h5, h6, hv]

theorem handle_who_role (env : Env) (d : Draft) (t : String)
    (hp : plainText t) (hv : t.pyStrip = "Агент" ∨ t.pyStrip = "Владелец") :
    handle env ⟨.who, d⟩ (.text t) =
      ⟨⟨.docs, { d with who := some t.pyStrip }⟩, [.reply msgAskDocs]⟩ := by
  obtain ⟨h1, h2, h3, h4, h5, h6⟩ := hp
  rcases hv with h | h <;>
    simp [handle, process_who, h1, h2, h3, h4, h5, h6, h] <;>
    exact fun hx => absurd hx (by decide)

theorem handle_docs_done (env : Env) (d : Draft) :
    handle env ⟨.docs, d⟩ (.text "Готово") =
      ⟨⟨.comment, d⟩, [.reply msgAskComment]⟩ := rfl

theorem handle_comment_sets (env : Env) (d : Draft) (t : String)
    (hp : plainText t) (hne : t.pyStrip ≠ "") :
    handle env ⟨.comment, d⟩ (.text t) =
      ⟨⟨.confirm, { d with comment := some t.pyStrip }⟩,
        [.reply (fmt_request_message
          (previewRec env { d with comment := some t.pyStrip }))]⟩ := by
  obtain ⟨h1, h2, h3, h4, h5, h6⟩ := hp
  simp [handle, process_comment, h1, h2, h3, h4, h5, h6, hne]

/-- C9: from AWAIT_CONFIRM, `Изменить данные` moves to AWAIT_ADDRESS
with every draft field retained; a subsequent full valid re-traversal
reaches AWAIT_CONFIRM with the overwritten values (attachments and
any not-yet-overwritten field kept) and renders the preview of the
updated draft. -/
theorem c9_edit_loop (env e1 e2 e3 e4 e5 : Env) (d : Draft)
    (addr cad role cmt : String)
    (hap : plainText addr) (hav : validate_address addr.pyStrip = true)
    (hcp : plainText cad) (hcv : validate_cadastral cad.pyStrip = true)
    (hrp : plainText role) (hrv : role.pyStrip = "Агент" ∨ role.pyStrip = "Владелец")
    (hmp : plainText cmt) (hmne : cmt.pyStrip ≠ "") :
    handle env ⟨.confirm, d⟩ (.text "Изменить данные") =
      ⟨⟨.address, d⟩, [.reply msgLetsEdit]⟩ ∧
    run ⟨.address, d⟩
        [(.text addr, e1), (.text cad, e2), (.text role, e3), (.text "Готово", e4)] =
      ⟨.comment, ⟨some addr.pyStrip, some cad.pyStrip, some role.pyStrip,
        d.files, d.comment⟩⟩ ∧
    handle e5 ⟨.comment, ⟨some addr.pyStrip, some cad.pyStrip, some role.pyStrip,
        d.files, d.comment⟩⟩ (.text cmt) =
      ⟨⟨.confirm, ⟨some addr.pyStrip, some cad.pyStrip, some role.pyStrip,
          d.files, some cmt.pyStrip⟩⟩,
        [.reply (fmt_request_message (previewRec e5
          ⟨some addr.pyStrip, some cad.pyStrip, some role.pyStrip,
            d.files, some cmt.pyStrip⟩))]⟩ := by
  refine ⟨rfl, ?_, ?_⟩
  · simp [run, handle_address_valid e1 d addr hap hav,
      handle_cadastral_valid e2 _ cad hcp hcv,
      handle_who_role e3 _ role hrp hrv,
      handle_docs_done e4 _]
  · have h := handle_comment_sets e5
      ⟨some addr.pyStrip, some cad.pyStrip, some role.pyStrip, d.files, d.comment⟩
      cmt hmp hmne
    simpa using h

/-- C9 witness: a filled draft, edit, and a full re-traversal with new
values. -/
theorem c9_witness :
    run ⟨.address, ⟨some "Старая улица 1", some "77:01:1:1", some "Агент",
        ["f.pdf"], some "старый"⟩⟩
        [(.text "Новая улица 9", envW), (.text "78:02:3:4", envW),
         (.text "Владелец", envW), (.text "Готово", envW)] =
      ⟨.comment, ⟨some "Новая улица 9", some "78:02:3:4", some "Владелец",
        ["f.pdf"], some "старый"⟩⟩ := by
  have h := (c9_edit_loop envW envW envW envW envW envW
    ⟨some "Старая улица 1", some "77:01:1:1", some "Агент", ["f.pdf"], some "старый"⟩
    "Новая улица 9" "78:02:3:4" "Владелец" "обновлён"
    (by decide) (by decide) (by decide) (by decide) (by decide) (by decide)
    (by decide) (by decide)).2.1
  simpa using h

/-- C8: for the operator, `/report` with no argument queries a 7-day
lookback; with a digit-string argument it queries exactly that value;
with a nonempty non-numeric argument it replies with the usage
message only — no query and no spreadsheet effect. -/
theorem c8_report_argument_parsing (env : Env)
    (hadmin : env.userId = ADMIN_CHAT_ID) :
    (cmd_report env "" = reportBody env 7 ∧ Effect.queryDB 7 ∈ cmd_report env "") ∧
    (∀ s : String, pyIsDigit s = true → 0 < pyInt s →
      cmd_report env s = reportBody env (pyInt s) ∧
      Effect.queryDB (pyInt s) ∈ cmd_report env s) ∧
    (∀ s : String, s ≠ "" → pyIsDigit s = false →
      cmd_report env s = [.reply msgReportUsage]) := by
  have hne : ¬(env.userId ≠ ADMIN_CHAT_ID) := by simp [hadmin]
  refine ⟨⟨?_, ?_⟩, ?_, ?_⟩
  · simp [cmd_report, hne]
  · simp [cmd_report, hne, reportBody]
  · intro s hd hpos
    have hs : s ≠ "" := by
      intro h
      rw [h] at hd
      simp [pyIsDigit] at hd
    refine ⟨?_, ?_⟩
    · simp [cmd_report, hne, hs, hd]
    · simp [cmd_report, hne, hs, hd, reportBody]
  · intro s hs hd
    simp [cmd_report, hne, hs, hd]

/-- C8 witness: the three argument shapes at the operator identity. -/
theorem c8_witness :
    cmd_report { envW with userId := ADMIN_CHAT_ID } "" =
      reportBody { envW with userId := ADMIN_CHAT_ID } 7 ∧
    cmd_report { envW with userId := ADMIN_CHAT_ID } "30" =
      reportBody { envW with userId := ADMIN_CHAT_ID } 30 ∧
    cmd_report { envW with userId := ADMIN_CHAT_ID } "abc" =
      [.reply msgReportUsage] := by
  have h := c8_report_argument_parsing { envW with userId := ADMIN_CHAT_ID } rfl
  exact ⟨h.1.1, (h.2.1 "30" (by decide) (by decide)).1,
    h.2.2 "abc" (by decide) (by decide)⟩

/-- C7: a text that fails validation or matches no expected option in
the current state re-prompts with that state's message while the
state and every draft field stay unchanged; applying the same
unrecognized input twice in a row leaves the conversation exactly
where it started. -/
theorem c7_reprompt_frame (env env2 : Env) (s : ConvState) (d : Draft) (t : String)
    (hp : plainText t) (hu : unrecognizedIn s t) :
    handle env ⟨s, d⟩ (.text t) = ⟨⟨s, d⟩, [.reply (repromptMsg s)]⟩ ∧
    run ⟨s, d⟩ [(.text t, env), (.text t, env2)] = ⟨s, d⟩ := by
  obtain ⟨h1, h2, h3, h4, h5, h6⟩ := hp
  have key : ∀ e : Env, handle e ⟨s, d⟩ (.text t) = ⟨⟨s, d⟩, [.reply (repromptMsg s)]⟩ := by
    intro e
    cases s with
    | idle => exact hu.elim
    | whoOther => exact hu.elim
    | comment => exact hu.elim
    | address =>
      have hu2 : validate_address t.pyStrip = false := hu
      simp [handle, process_address, h1, h2, h3, h4, h5, h6, hu2, repromptMsg]
    | cadastral =>
      have hu2 : validate_cadastral t.pyStrip = false := hu
      simp [handle, process_cadastral, h1, h2, h3, h4, h5, h6, hu2, repromptMsg]
    | who =>
      simp [handle, process_who, h1, h2, h3, h4, h5, h6, hu.1, hu.2.1, hu.2.2, repromptMsg]
    | docs =>
      simp [handle, process_docs, h1, h2, h3, h4, h5, h6, hu.1, hu.2.1, hu.2.2, repromptMsg]
    | confirm =>
      simp [handle, process_confirm, h1, h2, h3, h4, h5, h6, hu.1, hu.2.1, hu.2.2, repromptMsg]
  have e1 : (handle env ⟨s, d⟩ (.text t)).conv = ⟨s, d⟩ := by rw [key env]
  have e2 : (handle env2 ⟨s, d⟩ (.text t)).conv = ⟨s, d⟩ := by rw [key env2]
  exact ⟨key env, by simp [run, e1, e2]⟩

/-- C7 witness: an invalid (single-token) address sent twice from
AWAIT_ADDRESS with an empty draft. -/
theorem c7_witness :
    handle envW ⟨.address, emptyDraft⟩ (.text "Короткий") =
      ⟨⟨.address, emptyDraft⟩, [.reply msgBadAddress]⟩ ∧
    run ⟨.address, emptyDraft⟩ [(.text "Короткий", envW), (.text "Короткий", envW)] =
      ⟨.address, emptyDraft⟩ := by
  have h := c7_reprompt_frame envW envW .address emptyDraft "Короткий"
    (by decide) (by decide)
  exact ⟨h.1, h.2⟩

/-- C10 counterexample: the claim says only the cancel command and the
start/help command clear the draft, but a successful send
(`Отправить эксперту` in AWAIT_CONFIRM) also finishes the state and
clears the stored data — and it is none of the listed commands. -/
theorem c10_counterexample :
    (handle envW ⟨.confirm, ⟨some "Адрес 1", some "нет", some "Агент", [], some "ок"⟩⟩
        (.text "Отправить эксперту")).conv.draft = emptyDraft ∧
    (⟨some "Адрес 1", some "нет", some "Агент", [], some "ок"⟩ : Draft).address ≠ none ∧
    "Отправить эксперту" ≠ "Отмена" ∧
    isCommand "Отправить эксперту" "start" = false ∧
    isCommand "Отправить эксперту" "help" = false ∧
    pyLower "Отправить эксперту".pyStrip ≠ "отмена" := by decide

/-- C10 (amended): in every state, the new-request text moves to
AWAIT_ADDRESS with the stored draft untouched; and every text event
other than a cancel interpretation, the start/help command, and the
send confirmation in AWAIT_CONFIRM keeps each set draft field set
(possibly overwritten) and the attachment list exactly unchanged. -/
theorem c10_new_request_keeps_draft (env : Env) (s : ConvState) (d : Draft)
    (t : String)
    (hs : isCommand t "start" = false) (hh : isCommand t "help" = false)
    (hc : pyLower t.pyStrip ≠ "отмена")
    (hsend : ¬(s = ConvState.confirm ∧ t.pyStrip = "Отправить эксперту")) :
    handle env ⟨s, d⟩ (.text "Создать новый запрос") =
      ⟨⟨.address, d⟩, [.reply msgAskAddress]⟩ ∧
    (d.address.isSome → ((handle env ⟨s, d⟩ (.text t)).conv.draft.address).isSome) ∧
    (d.cadastral.isSome → ((handle env ⟨s, d⟩ (.text t)).conv.draft.cadastral).isSome) ∧
    (d.who.isSome → ((handle env ⟨s, d⟩ (.text t)).conv.draft.who).isSome) ∧
    (d.comment.isSome → ((handle env ⟨s, d⟩ (.text t)).conv.draft.comment).isSome) ∧
    (handle env ⟨s, d⟩ (.text t)).conv.draft.files = d.files := by
  refine ⟨rfl, ?_⟩
  have ht : t ≠ "Отмена" := by
    intro h
    apply hc
    rw [h]
    decide
  by_cases hwho : isCommand t "whoami" = true
  · simp [handle, hs, hh, hwho]
  · have hwho2 : isCommand t "whoami" = false := by simpa using hwho
    by_cases hnew : t = "Создать новый запрос"
    · subst hnew
      exact ⟨fun h => h, fun h => h, fun h => h, fun h => h, rfl⟩
    · cases s with
      | idle =>
        have hred : handle env ⟨.idle, d⟩ (.text t) =
            if isCommand t "report" = true then
              ⟨⟨.idle, d⟩, cmd_report env (get_args t)⟩
            else ⟨⟨.idle, d⟩, []⟩ := by
          simp [handle, hs, hh, hwho2, ht, hnew]
        rw [hred]
        split
        · exact ⟨fun h => h, fun h => h, fun h => h, fun h => h, rfl⟩
        · exact ⟨fun h => h, fun h => h, fun h => h, fun h => h, rfl⟩
      | address =>
        have hred : handle env ⟨.address, d⟩ (.text t) = process_address d t := by
          simp [handle, hs, hh, hwho2, ht, hnew]
        rw [hred]
        unfold process_address
        dsimp only
        split_ifs with hA hB
        · exact absurd hA hc
        · exact ⟨fun h => h, fun h => h, fun h => h, fun h => h, rfl⟩
        · simp
      | cadastral =>
        have hred : handle env ⟨.cadastral, d⟩ (.text t) = process_cadastral d t := by
          simp [handle, hs, hh, hwho2, ht, hnew]
        rw [hred]
        unfold process_cadastral
        dsimp only
        split_ifs with hA hB
        · exact absurd hA hc
        · exact ⟨fun h => h, fun h => h, fun h => h, fun h => h, rfl⟩
        · simp
      | who =>
        have hred : handle env ⟨.who, d⟩ (.text t) = process_who d t := by
          simp [handle, hs, hh, hwho2, ht, hnew]
        rw [hred]
        unfold process_who
        dsimp only
        split_ifs with hA hB hC
        · exact absurd hA hc
        · exact ⟨fun h => h, fun h => h, fun h => h, fun h => h, rfl⟩
        · exact ⟨fun h => h, fun h => h, fun h => h, fun h => h, rfl⟩
        · simp
      | whoOther =>
        have hred : handle env ⟨.whoOther, d⟩ (.text t) = process_who_other d t := by
          simp [handle, hs, hh, hwho2, ht, hnew]
        rw [hred]
        unfold process_who_other
        dsimp only
        split_ifs with hA
        · exact absurd hA hc
        · simp
      | docs =>
        have hred : handle env ⟨.docs, d⟩ (.text t) = process_docs env d (.text t) := by
          simp [handle, hs, hh, hwho2, ht, hnew]
        rw [hred]
        unfold process_docs
        dsimp only
        split_ifs with hA hB hC
        · exact absurd hA hc
        · exact ⟨fun h => h, fun h => h, fun h => h, fun h => h, rfl⟩
        · exact ⟨fun h => h, fun h => h, fun h => h, fun h => h, rfl⟩
        · exact ⟨fun h => h, fun h => h, fun h => h, fun h => h, rfl⟩
      | comment =>
        have hred : handle env ⟨.comment, d⟩ (.text t) = process_comment env d t := by
          simp [handle, hs, hh, hwho2, ht, hnew]
        rw [hred]
        unfold process_comment
        dsimp only
        split_ifs with hA hB
        · exact absurd hA hc
        · simp
        · simp
      | confirm =>
        have hred : handle env ⟨.confirm, d⟩ (.text t) = process_confirm env d t := by
          simp [handle, hs, hh, hwho2, ht, hnew]
        rw [hred]
        unfold process_confirm
        dsimp only
        split_ifs with hA hB hC
        · exact absurd ⟨rfl, hA⟩ hsend
        · exact ⟨fun h => h, fun h => h, fun h => h, fun h => h, rfl⟩
        · exact absurd (show pyLower t.pyStrip = "отмена" by rw [hC]; decide) hc
        · exact ⟨fun h => h, fun h => h, fun h => h, fun h => h, rfl⟩

/-- C10 witness: a new-request restart from DOCS keeps the filled
draft, and an unrecognized text leaves the attachment list intact. -/
theorem c10_witness :
    handle envW ⟨.docs, ⟨some "Адрес 1", some "нет", some "Агент", ["a.pdf"], some "ок"⟩⟩
        (.text "Создать новый запрос") =
      ⟨⟨.address, ⟨some "Адрес 1", some "нет", some "Агент", ["a.pdf"], some "ок"⟩⟩,
        [.reply msgAskAddress]⟩ ∧
    (handle envW ⟨.docs, ⟨some "Адрес 1", some "нет", some "Агент", ["a.pdf"], some "ок"⟩⟩
        (.text "привет")).conv.draft.files = ["a.pdf"] := by
  have h := c10_new_request_keeps_draft envW .docs
    ⟨some "Адрес 1", some "нет", some "Агент", ["a.pdf"], some "ок"⟩ "привет"
    (by decide) (by decide) (by decide) (by decide)
  exact ⟨h.1, h.2.2.2.2.2⟩

theorem uuidNibbles_length (n : Nat) : (uuidNibbles n).length = 32 := by
  simp [uuidNibbles]

theorem uuidFormat_length (n : Nat) : (uuidFormat n).length = 36 := by
  have h := uuidNibbles_length n
  simp [uuidFormat, String.length_append, String.length_mk, List.length_take,
    List.length_drop, h, show ("-" : String).length = 1 from rfl]

theorem uuidFormat_ne_empty (n : Nat) : uuidFormat n ≠ "" := by
  intro h
  have h2 := uuidFormat_length n
  rw [h] at h2
  simp at h2

theorem run_append (c : Conv) (l1 l2 : List (Event × Env)) :
    run c (l1 ++ l2) = run (run c l1) l2 := by
  simp [run, List.foldl_append]

/-- A sequence of accepted file events in DOCS stays in DOCS and
appends exactly the stored names, in order. -/
theorem run_docs_accepted (l : List (Event × Env)) (d : Draft)
    (h : ∀ p ∈ l, acceptedFile p) :
    run ⟨.docs, d⟩ l = ⟨.docs, { d with files := d.files ++ l.map storedName }⟩ := by
  induction l generalizing d with
  | nil => simp [run]
  | cons p rest ih =>
    have hp := h p (List.mem_cons_self p rest)
    have hrest : ∀ q ∈ rest, acceptedFile q := fun q hq => h q (List.mem_cons_of_mem p hq)
    have hstep : (handle p.2 ⟨.docs, d⟩ p.1).conv =
        ⟨.docs, { d with files := d.files ++ [storedName p] }⟩ := by
      rcases p with ⟨e, env⟩
      rcases e with t | ⟨m, sz, nm⟩ | sz
      · exact absurd hp (by simp [acceptedFile])
      · rcases m with _ | m
        · exact absurd hp (by simp [acceptedFile])
        · obtain ⟨hm, hsz⟩ := hp
          have hm2 : m ∈ ALLOWED_DOC_TYPES := by simpa using hm
          simp [handle, process_docs, acceptFile, hm, hm2, Nat.not_lt.mpr hsz,
            storedName, destName]
      · have hsz : sz.getD 0 ≤ MAX_FILE_SIZE := hp
        have hjpeg : ("image/jpeg" : String) ∈ ALLOWED_DOC_TYPES := by decide
        simp [handle, process_docs, acceptFile, hjpeg, Nat.not_lt.mpr hsz,
          storedName, destName]
    have hcons : run ⟨.docs, d⟩ (p :: rest) = run (handle p.2 ⟨.docs, d⟩ p.1).conv rest := rfl
    rw [hcons, hstep, ih _ hrest]
    simp

/-- C5: the full valid sequence — start, valid address, cadastral
answer, recognized role, any number of accepted attachments, done,
nonempty comment — reaches AWAIT_CONFIRM, and the send confirmation
inserts into the store a record whose address, cadastral number, role,
comment and ordered attachment-name list are the draft values
verbatim, with a freshly formatted non-empty uuid and the utc
timestamp of the confirmation event, which is not earlier than the
start of the sequence. -/
theorem c5_round_trip (e1 e2 e3 e4 e5 e6 e7 : Env) (atts : List (Event × Env))
    (addr cad role cmt : String)
    (hap : plainText addr) (hav : validate_address addr.pyStrip = true)
    (hcp : plainText cad) (hcv : validate_cadastral cad.pyStrip = true)
    (hrp : plainText role) (hrv : role.pyStrip = "Агент" ∨ role.pyStrip = "Владелец")
    (hmp : plainText cmt) (hmne : cmt.pyStrip ≠ "")
    (hatts : ∀ p ∈ atts, acceptedFile p)
    (hmono : e1.now ≤ e7.now) :
    (run initConv
        ((.text "Создать новый запрос", e1) :: (.text addr, e2) :: (.text cad, e3) ::
          (.text role, e4) :: (atts ++ [(.text "Готово", e5), (.text cmt, e6)]))) =
      ⟨.confirm, ⟨some addr.pyStrip, some cad.pyStrip, some role.pyStrip,
        atts.map storedName, some cmt.pyStrip⟩⟩ ∧
    handle e7
        ⟨.confirm, ⟨some addr.pyStrip, some cad.pyStrip, some role.pyStrip,
          atts.map storedName, some cmt.pyStrip⟩⟩
        (.text "Отправить эксперту") =
      ⟨⟨.idle, emptyDraft⟩,
        .insertDB (⟨uuidFormat e7.uuid, e7.userId, e7.username.getD e7.fullName,
            some addr.pyStrip, some cad.pyStrip, some role.pyStrip, some cmt.pyStrip,
            atts.map storedName, fmtUtc e7.now⟩ : Rec) ::
          notifyEffects e7 ⟨uuidFormat e7.uuid, e7.userId, e7.username.getD e7.fullName,
            some addr.pyStrip, some cad.pyStrip, some role.pyStrip, some cmt.pyStrip,
            atts.map storedName, fmtUtc e7.now⟩ ++ [.reply msgSuccess]⟩ ∧
    uuidFormat e7.uuid ≠ "" ∧
    e1.now ≤ e7.now := by
  refine ⟨?_, rfl, uuidFormat_ne_empty e7.uuid, hmono⟩
  have r2 : run initConv
      ((.text "Создать новый запрос", e1) :: (.text addr, e2) :: (.text cad, e3) ::
        (.text role, e4) :: (atts ++ [(.text "Готово", e5), (.text cmt, e6)])) =
      run ⟨.cadastral, ⟨some addr.pyStrip, none, none, [], none⟩⟩
        ((.text cad, e3) :: (.text role, e4) ::
          (atts ++ [(.text "Готово", e5), (.text cmt, e6)])) := by
    show run (handle e2 ⟨.address, emptyDraft⟩ (.text addr)).conv _ = _
    rw [handle_address_valid e2 emptyDraft addr hap hav]
    rfl
  have r3 : run ⟨.cadastral, ⟨some addr.pyStrip, none, none, [], none⟩⟩
      ((.text cad, e3) :: (.text role, e4) ::
        (atts ++ [(.text "Готово", e5), (.text cmt, e6)])) =
      run ⟨.who, ⟨some addr.pyStrip, some cad.pyStrip, none, [], none⟩⟩
        ((.text role, e4) :: (atts ++ [(.text "Готово", e5), (.text cmt, e6)])) := by
    show run (handle e3 _ (.text cad)).conv _ = _
    rw [handle_cadastral_valid e3 _ cad hcp hcv]
  have r4 : run ⟨.who, ⟨some addr.pyStrip, some cad.pyStrip, none, [], none⟩⟩
      ((.text role, e4) :: (atts ++ [(.text "Готово", e5), (.text cmt, e6)])) =
      run ⟨.docs, ⟨some addr.pyStrip, some cad.pyStrip, some role.pyStrip, [], none⟩⟩
        (atts ++ [(.text "Готово", e5), (.text cmt, e6)]) := by
    show run (handle e4 _ (.text role)).conv _ = _
    rw [handle_who_role e4 _ role hrp hrv]
  have r5 : run ⟨.docs, ⟨some addr.pyStrip, some cad.pyStrip, some role.pyStrip, [], none⟩⟩
      (atts ++ [(.text "Готово", e5), (.text cmt, e6)]) =
      run ⟨.docs, ⟨some addr.pyStrip, some cad.pyStrip, some role.pyStrip,
          atts.map storedName, none⟩⟩
        [(.text "Готово", e5), (.text cmt, e6)] := by
    rw [run_append, run_docs_accepted atts _ hatts]
    rfl
  have r6 : run ⟨.docs, ⟨some addr.pyStrip, some cad.pyStrip, some role.pyStrip,
        atts.map storedName, none⟩⟩
      [(.text "Готово", e5), (.text cmt, e6)] =
      run ⟨.comment, ⟨some addr.pyStrip, some cad.pyStrip, some role.pyStrip,
          atts.map storedName, none⟩⟩ [(.text cmt, e6)] := by
    show run (handle e5 _ (.text "Готово")).conv _ = _
    rw [handle_docs_done]
  have r7 : run ⟨.comment, ⟨some addr.pyStrip, some cad.pyStrip, some role.pyStrip,
        atts.map storedName, none⟩⟩ [(.text cmt, e6)] =
      ⟨.confirm, ⟨some addr.pyStrip, some cad.pyStrip, some role.pyStrip,
        atts.map storedName, some cmt.pyStrip⟩⟩ := by
    show run (handle e6 _ (.text cmt)).conv [] = _
    rw [handle_comment_sets e6 _ cmt hmp hmne]
    rfl
  rw [r2, r3, r4, r5, r6, r7]

/-- C5 witness: a concrete full valid sequence with one accepted PDF
attachment. -/
theorem c5_witness :
    run initConv
        ((.text "Создать новый запрос", envW) :: (.text "Главная улица 5", envW) ::
          (.text "нет", envW) :: (.text "Владелец", envW) ::
          ([(.document (some "application/pdf") (some 1000) (some "doc.pdf"), envW)] ++
            [(.text "Готово", envW), (.text "всё готово", envW)])) =
      ⟨.confirm, ⟨some "Главная улица 5", some "нет", some "Владелец",
        [destName envW.now "doc.pdf"], some "всё готово"⟩⟩ ∧
    uuidFormat envW.uuid ≠ "" := by
  have h := c5_round_trip envW envW envW envW envW envW envW
    [(.document (some "application/pdf") (some 1000) (some "doc.pdf"), envW)]
    "Главная улица 5" "нет" "Владелец" "всё готово"
    (by decide) (by decide) (by decide) (by decide) (by decide) (by decide)
    (by decide) (by decide) (by decide) (by decide)
  exact ⟨h.1, h.2.2.1⟩

/-!  Preservation of the completeness invariant, one lemma per
handler, then over any event and any trace. -/

theorem inv_process_address (d : Draft) (t : String) :
    draftInvB (process_address d t).conv = true := by
  unfold process_address
  dsimp only
  split_ifs <;> rfl

theorem inv_process_cadastral (d : Draft) (t : String)
    (h : d.address.isSome = true) :
    draftInvB (process_cadastral d t).conv = true := by
  unfold process_cadastral
  dsimp only
  split_ifs
  · rfl
  · exact h
  · simp [draftInvB, h]

theorem inv_process_who (d : Draft) (t : String)
    (h : (d.address.isSome && d.cadastral.isSome) = true) :
    draftInvB (process_who d t).conv = true := by
  unfold process_who
  dsimp only
  split_ifs
  · rfl
  · exact h
  · exact h
  · simp [draftInvB, Bool.and_eq_true] at h ⊢
    exact h

theorem inv_process_who_other (d : Draft) (t : String)
    (h : (d.address.isSome && d.cadastral.isSome) = true) :
    draftInvB (process_who_other d t).conv = true := by
  unfold process_who_other
  dsimp only
  split_ifs
  · rfl
  · simp [draftInvB, Bool.and_eq_true] at h ⊢
    exact h

theorem inv_process_docs (env : Env) (d : Draft) (e : Event)
    (h : (d.address.isSome && d.cadastral.isSome && d.who.isSome) = true) :
    draftInvB (process_docs env d e).conv = true := by
  rcases e with t | ⟨m, sz, nm⟩ | sz
  · unfold process_docs
    dsimp only
    split_ifs
    · rfl
    · exact h
    · exact h
    · exact h
  · unfold process_docs acceptFile
    dsimp only
    split_ifs <;> exact h
  · unfold process_docs acceptFile
    dsimp only
    split_ifs <;> exact h

theorem inv_process_comment (env : Env) (d : Draft) (t : String)
    (h : (d.address.isSome && d.cadastral.isSome && d.who.isSome) = true) :
    draftInvB (process_comment env d t).conv = true := by
  unfold process_comment
  dsimp only
  split_ifs
  · rfl
  · simp [draftInvB, Bool.and_eq_true] at h ⊢
    exact h
  · simp [draftInvB, Bool.and_eq_true] at h ⊢
    exact h

theorem inv_process_confirm (env : Env) (d : Draft) (t : String)
    (h : (d.address.isSome && d.cadastral.isSome && d.who.isSome &&
      d.comment.isSome) = true) :
    draftInvB (process_confirm env d t).conv = true := by
  unfold process_confirm
  dsimp only
  split_ifs
  · rfl
  · rfl
  · rfl
  · exact h

/-- Every single event preserves the completeness invariant. -/
theorem handle_inv (env : Env) (c : Conv) (e : Event)
    (h : draftInvB c = true) : draftInvB (handle env c e).conv = true := by
  rcases c with ⟨s, d⟩
  rcases e with t | ⟨m, sz, nm⟩ | sz
  · cases s with
    | idle =>
      simp only [handle]
      split_ifs <;> rfl
    | address =>
      simp only [handle]
      split_ifs
      · rfl
      · rfl
      · rfl
      · rfl
      · exact inv_process_address d t
    | cadastral =>
      simp only [handle]
      split_ifs
      · rfl
      · exact h
      · rfl
      · rfl
      · exact inv_process_cadastral d t h
    | who =>
      simp only [handle]
      split_ifs
      · rfl
      · exact h
      · rfl
      · rfl
      · exact inv_process_who d t h
    | whoOther =>
      simp only [handle]
      split_ifs
      · rfl
      · exact h
      · rfl
      · rfl
      · exact inv_process_who_other d t h
    | docs =>
      simp only [handle]
      split_ifs
      · rfl
      · exact h
      · rfl
      · rfl
      · exact inv_process_docs env d (.text t) h
    | comment =>
      simp only [handle]
      split_ifs
      · rfl
      · exact h
      · rfl
      · rfl
      · exact inv_process_comment env d t h
    | confirm =>
      simp only [handle]
      split_ifs
      · rfl
      · exact h
      · rfl
      · rfl
      · exact inv_process_confirm env d t h
  · cases s with
    | docs => exact inv_process_docs env d (.document m sz nm) h
    | idle => exact h
    | address => exact h
    | cadastral => exact h
    | who => exact h
    | whoOther => exact h
    | comment => exact h
    | confirm => exact h
  · cases s with
    | docs => exact inv_process_docs env d (.photo sz) h
    | idle => exact h
    | address => exact h
    | cadastral => exact h
    | who => exact h
    | whoOther => exact h
    | comment => exact h
    | confirm => exact h

/-- The completeness invariant holds along every trace. -/
theorem run_inv (tr : List (Event × Env)) :
    ∀ c : Conv, draftInvB c = true → draftInvB (run c tr) = true := by
  induction tr with
  | nil => exact fun c h => h
  | cons p rest ih => exact fun c h => ih _ (handle_inv p.2 c p.1 h)

/-- C1: along every event trace from the initial conversation, being
in AWAIT_CONFIRM implies the draft's address, cadastral number, role
and comment are all set — so the send confirmation always finalizes a
complete draft and the incomplete-draft situation is unreachable. -/
theorem c1_confirm_draft_complete (tr : List (Event × Env))
    (h : (run initConv tr).state = ConvState.confirm) :
    (run initConv tr).draft.address.isSome = true ∧
    (run initConv tr).draft.cadastral.isSome = true ∧
    (run initConv tr).draft.who.isSome = true ∧
    (run initConv tr).draft.comment.isSome = true := by
  have hinv := run_inv tr initConv rfl
  unfold draftInvB at hinv
  rw [h] at hinv
  replace hinv : ((run initConv tr).draft.address.isSome &&
      (run initConv tr).draft.cadastral.isSome &&
      (run initConv tr).draft.who.isSome &&
      (run initConv tr).draft.comment.isSome) = true := hinv
  simp only [Bool.and_eq_true] at hinv
  exact ⟨hinv.1.1.1, hinv.1.1.2, hinv.1.2, hinv.2⟩

/-- C1 witness: a concrete trace into AWAIT_CONFIRM (skipping the
attachments) has all four required fields set. -/
theorem c1_witness :
    (run initConv [(.text "Создать новый запрос", envW), (.text "Улица 7", envW),
        (.text "нет", envW), (.text "Агент", envW), (.text "Пропустить", envW),
        (.text "замечаний нет", envW)]).draft.address.isSome = true ∧
    (run initConv [(.text "Создать новый запрос", envW), (.text "Улица 7", envW),
        (.text "нет", envW), (.text "Агент", envW), (.text "Пропустить", envW),
        (.text "замечаний нет", envW)]).draft.cadastral.isSome = true ∧
    (run initConv [(.text "Создать новый запрос", envW), (.text "Улица 7", envW),
        (.text "нет", envW), (.text "Агент", envW), (.text "Пропустить", envW),
        (.text "замечаний нет", envW)]).draft.who.isSome = true ∧
    (run initConv [(.text "Создать новый запрос", envW), (.text "Улица 7", envW),
        (.text "нет", envW), (.text "Агент", envW), (.text "Пропустить", envW),
        (.text "замечаний нет", envW)]).draft.comment.isSome = true :=
  c1_confirm_draft_complete
    [(.text "Создать новый запрос", envW), (.text "Улица 7", envW),
      (.text "нет", envW), (.text "Агент", envW), (.text "Пропустить", envW),
      (.text "замечаний нет", envW)] (by decide)
